import Mathlib

/-!
Verification development for the anchor-escrow repository.

The repository ships a JavaScript client (src/client/README.md, embedded
EscrowAPI class), shell test drivers, and documentation of the on-chain
Anchor escrow program (src/cursor/README-escrow.md).  Pure client
functions are embedded directly from the JavaScript source.  The on-chain
instruction handlers themselves are not part of the repository sources,
so they are modelled from the specification, as noted on each definition.
Account identities, mints and addresses are abstracted as natural numbers;
token amounts are natural numbers (u64 values far below overflow in every
scenario considered here).
-/

/-- A JavaScript value as produced by the client when it builds plain
object literals: strings, numbers and booleans. -/
inductive JsValue where
  | str (s : String)
  | num (n : Nat)
  | bool (b : Bool)
deriving DecidableEq, BEq, Repr

/-- The on-chain Escrow state account, from the Rust struct shown in
src/cursor/README-escrow.md: seed, bump, initializer, mint_a, mint_b,
initializer_amount, taker_amount, payment_confirmed.  Note the struct
stores no taker or counterparty identity. -/
structure EscrowAccount where
  seed : Nat
  bump : Nat
  initializer : Nat
  mintA : Nat
  mintB : Nat
  initializerAmount : Nat
  takerAmount : Nat
  paymentConfirmed : Bool
deriving DecidableEq, Repr

/-- Modelled from the spec: the error taxonomy of the on-chain handlers
(spec sections 4.2 to 4.5 and 7), whose Rust sources are not in src/. -/
inductive EscrowError where
  | Unauthorized
  | AlreadyConfirmed
  | EscrowNotFound
  | PaymentNotConfirmed
  | PaymentAlreadyConfirmed
  | InvalidAmount
  | InsufficientFunds
  | DuplicateSeed
  | AccountMismatch
deriving DecidableEq, Repr

/-- Modelled from the spec: the ledger world of one escrow agreement, as
described in spec sections 2 and 3 (the on-chain account state is not in
src/).  It holds the fixed party identities of the agreement, the escrow
state account when one is active, and the four token balances the
operations move between: the vault, the initializer, the counterparty
(taker) and the platform. -/
structure LedgerState where
  initializerId : Nat
  counterpartyId : Nat
  mintA : Nat
  mintB : Nat
  escrow : Option EscrowAccount
  vaultBalance : Nat
  initializerBalance : Nat
  takerBalance : Nat
  platformBalance : Nat
deriving DecidableEq, Repr

/-- The platform fee percentage, 6, hardcoded in the program per
src/client/README.md (Platform Fee section). -/
def feePercent : Nat := 6

/-- Modelled from the spec: the FeeSplitter of the on-chain program
(spec section 4.6; the Rust source is not in src/).  Integer truncation
for the fee, net is the remainder. -/
def split (gross percent : Nat) : Nat × Nat :=
  let fee := gross * percent / 100
  (fee, gross - fee)

/-- Modelled from the spec: the Initialize handler (spec section 4.2;
the Rust source is not in src/), renamed from initialize.  Zero deposits
are rejected, the seed address must be free, the caller must be the
depositing party and must hold the deposit; on success the escrow record
is created with payment_confirmed = false and the deposit moves from the
initializer balance to the vault. -/
def initEscrow (signer seed amount takerAmt : Nat) (s : LedgerState) :
    Except EscrowError LedgerState :=
  if amount = 0 then .error .InvalidAmount
  else match s.escrow with
    | some _ => .error .DuplicateSeed
    | none =>
      if signer ≠ s.initializerId then .error .Unauthorized
      else if s.initializerBalance < amount then .error .InsufficientFunds
      else .ok { s with
        escrow := some {
          seed := seed
          bump := 0
          initializer := signer
          mintA := s.mintA
          mintB := s.mintB
          initializerAmount := amount
          takerAmount := takerAmt
          paymentConfirmed := false }
        initializerBalance := s.initializerBalance - amount
        vaultBalance := s.vaultBalance + amount }

/-- Modelled from the spec: the ConfirmPayment handler (spec section 4.3;
the Rust source is not in src/).  Only the counterparty may confirm, and
confirming an already confirmed escrow fails with AlreadyConfirmed. -/
def confirmPayment (signer : Nat) (s : LedgerState) :
    Except EscrowError LedgerState :=
  match s.escrow with
  | none => .error .EscrowNotFound
  | some e =>
    if signer ≠ s.counterpartyId then .error .Unauthorized
    else if e.paymentConfirmed then .error .AlreadyConfirmed
    else .ok { s with escrow := some { e with paymentConfirmed := true } }

/-- Modelled from the spec: the Exchange (Release) handler (spec section
4.4; the Rust source is not in src/).  Only the initializer may release,
payment must be confirmed, the vault must hold exactly the deposited
amount; the fee goes to the platform, the net to the counterparty, and
the escrow and vault are closed. -/
def exchange (signer : Nat) (s : LedgerState) :
    Except EscrowError LedgerState :=
  match s.escrow with
  | none => .error .EscrowNotFound
  | some e =>
    if signer ≠ e.initializer then .error .Unauthorized
    else if e.paymentConfirmed = false then .error .PaymentNotConfirmed
    else if s.vaultBalance ≠ e.initializerAmount then .error .AccountMismatch
    else .ok { s with
      escrow := none
      vaultBalance := 0
      platformBalance := s.platformBalance + (split e.initializerAmount feePercent).1
      takerBalance := s.takerBalance + (split e.initializerAmount feePercent).2 }

/-- Modelled from the spec: the Cancel handler (spec section 4.5; the
Rust source is not in src/).  Only the initializer may cancel, and only
while payment is unconfirmed; the vault balance returns to the
initializer in full and the escrow and vault are closed. -/
def cancel (signer : Nat) (s : LedgerState) :
    Except EscrowError LedgerState :=
  match s.escrow with
  | none => .error .EscrowNotFound
  | some e =>
    if signer ≠ e.initializer then .error .Unauthorized
    else if e.paymentConfirmed then .error .PaymentAlreadyConfirmed
    else .ok { s with
      escrow := none
      vaultBalance := 0
      initializerBalance := s.initializerBalance + s.vaultBalance }

/-- The client escrowRelease (src/client/README.md lines 595 to 656):
it fetches the escrow data first and throws before submitting the
exchange instruction when paymentConfirmed is false; otherwise it
submits exchange. -/
def escrowRelease (signer : Nat) (s : LedgerState) :
    Except EscrowError LedgerState :=
  match s.escrow with
  | none => .error .EscrowNotFound
  | some e =>
    if e.paymentConfirmed = false then .error .PaymentNotConfirmed
    else exchange signer s

/-- One submitted instruction of the four entry points. -/
inductive Op where
  | initOp (signer seed amount takerAmt : Nat)
  | confirmOp (signer : Nat)
  | exchangeOp (signer : Nat)
  | cancelOp (signer : Nat)
deriving DecidableEq, Repr

/-- Dispatch one operation to its handler. -/
def step : Op → LedgerState → Except EscrowError LedgerState
  | .initOp sig sd amt t, s => initEscrow sig sd amt t s
  | .confirmOp sig, s => confirmPayment sig s
  | .exchangeOp sig, s => exchange sig s
  | .cancelOp sig, s => cancel sig s

/-- Whether an Except value is a success. -/
def exOk {ε α : Type} : Except ε α → Bool
  | .ok _ => true
  | .error _ => false

/-- Apply one operation: a rejected operation is atomic and leaves the
ledger unchanged. -/
def applyOp (o : Op) (s : LedgerState) : LedgerState :=
  match step o s with
  | .ok s2 => s2
  | .error _ => s

/-- The ledger state after running a sequence of operations. -/
def stateAfter (s0 : LedgerState) (ops : List Op) : LedgerState :=
  ops.foldl (fun s o => applyOp o s) s0

/-- Whether the operation at position i of the sequence succeeds when the
whole sequence is run from s0. -/
def okAt (s0 : LedgerState) (ops : List Op) (i : Nat) : Bool :=
  match ops.get? i with
  | some o => exOk (step o (stateAfter s0 (ops.take i)))
  | none => false

/-- Whether position i of the sequence is a ConfirmPayment submission. -/
def isConfirmAt (ops : List Op) (i : Nat) : Bool :=
  match ops.get? i with
  | some (.confirmOp _) => true
  | _ => false

/-- Whether position i of the sequence is an Exchange submission. -/
def isExchangeAt (ops : List Op) (i : Nat) : Bool :=
  match ops.get? i with
  | some (.exchangeOp _) => true
  | _ => false

/-- Whether position i of the sequence is an Initialize submission. -/
def isInitAt (ops : List Op) (i : Nat) : Bool :=
  match ops.get? i with
  | some (.initOp _ _ _ _) => true
  | _ => false

/-- Whether the ledger currently holds an escrow whose payment is
confirmed. -/
def confirmedNow (s : LedgerState) : Bool :=
  match s.escrow with
  | some e => e.paymentConfirmed
  | none => false

/-- Total token supply across the four balances of the world. -/
def totalSupply (s : LedgerState) : Nat :=
  s.vaultBalance + s.initializerBalance + s.takerBalance + s.platformBalance

/-- The client getEscrowData (src/client/README.md lines 721 to 739):
a pure projection of the fetched escrow account into the JavaScript
object literal the method returns, field for field.  Pubkey and u64
fields are rendered with toString as in the source. -/
def getEscrowData (acc : EscrowAccount) : List (String × JsValue) :=
  [("seed", .str (toString acc.seed)),
   ("bump", .num acc.bump),
   ("initializer", .str (toString acc.initializer)),
   ("mintA", .str (toString acc.mintA)),
   ("mintB", .str (toString acc.mintB)),
   ("initializerAmount", .str (toString acc.initializerAmount)),
   ("takerAmount", .str (toString acc.takerAmount)),
   ("paymentConfirmed", .bool acc.paymentConfirmed)]

/-- Property access on a modelled JavaScript object. -/
def jsGet (o : List (String × JsValue)) (k : String) : Option JsValue :=
  (o.find? (fun kv => kv.1 == k)).map (fun kv => kv.2)

/-- Property access coerced to a boolean, false when absent or not a
boolean (JavaScript truthiness of the accessed field). -/
def jsGetBool (o : List (String × JsValue)) (k : String) : Bool :=
  match jsGet o k with
  | some (.bool b) => b
  | _ => false

/-- The object canReleaseEscrow returns. -/
structure CanReleaseResult where
  canRelease : Bool
  escrowData : Option (List (String × JsValue))
  message : String
deriving DecidableEq, Repr

/-- The client canReleaseEscrow (src/client/README.md lines 761 to 779):
on a successful fetch it reads paymentConfirmed off the getEscrowData
object; when getEscrowData throws (fetched = none) the catch branch
returns canRelease = false with a null escrowData. -/
def canReleaseEscrow (fetched : Option EscrowAccount) : CanReleaseResult :=
  match fetched with
  | none =>
    { canRelease := false
      escrowData := none
      message := "Failed to load escrow data" }
  | some acc =>
    let d := getEscrowData acc
    { canRelease := jsGetBool d "paymentConfirmed"
      escrowData := some d
      message :=
        if jsGetBool d "paymentConfirmed" then "Ready to release - payment confirmed"
        else "Cannot release - payment not confirmed yet" }

/-- The client getTokenBalance (src/client/README.md lines 788 to 797):
the try block returns the fetched token account amount; the catch block
maps every failure, including a missing associated token account, to 0. -/
def getTokenBalance (fetchResult : Except String Nat) : Nat :=
  match fetchResult with
  | .ok amount => amount
  | .error _ => 0

/-- The wallet getTokenBalance (src/wallet/debug-transactions.js lines
673 to 713), reduced to the balance field of the object it returns: the
throws for a disconnected wallet or unsupported token are raised inside
the try block and caught by the same catch, which returns balance 0, as
does any fetch failure. -/
def walletGetTokenBalance (walletConnected tokenSupported : Bool)
    (fetchResult : Except String Nat) : Nat :=
  if walletConnected = false then 0
  else if tokenSupported = false then 0
  else match fetchResult with
    | .ok amount => amount
    | .error _ => 0

/-- The client parseTokenAmount (src/client/README.md lines 833 to 839):
parseFloat is modelled as an Option rational (none for NaN); inputs that
are NaN or not strictly positive throw Invalid amount, otherwise the
amount is scaled by ten to the decimals and floored. -/
def parseTokenAmount (input : Option ℚ) (decimals : Nat) :
    Except String Int :=
  match input with
  | none => .error "Invalid amount"
  | some a =>
    if a ≤ 0 then .error "Invalid amount"
    else .ok (Int.floor (a * (10 : ℚ) ^ decimals))

/-- Little-endian byte encoding with a fixed byte width. -/
def leBytes : Nat → Nat → List Nat
  | 0, _ => []
  | n + 1, v => v % 256 :: leBytes n (v / 256)

/-- The seed bytes escrowCreate feeds to findProgramAddressSync together
with the namespace tag (src/client/README.md lines 467 to 474):
new anchor.BN(seed).toArrayLike(Buffer, le, 8), the 8-byte little-endian
encoding of the seed. -/
def escrowCreateSeedBytes (seed : Nat) : List Nat :=
  leBytes 8 seed

/-- Decimal digits of a natural number, most significant first, with
bounded fuel to keep the recursion structural. -/
def decDigitsFuel : Nat → Nat → List Nat
  | 0, _ => []
  | fuel + 1, n => if n < 10 then [n] else decDigitsFuel fuel (n / 10) ++ [n % 10]

/-- Decimal digits of a natural number, most significant first, as
produced by the JavaScript toString. -/
def decDigits (n : Nat) : List Nat :=
  decDigitsFuel (n + 1) n

/-- padStart(8, 0) on a digit string: left-pad with zero digits up to
length 8, longer strings unchanged. -/
def padTo8 (l : List Nat) : List Nat :=
  List.replicate (8 - l.length) 0 ++ l

/-- slice(-8) on a string: its last 8 characters. -/
def last8 (l : List Nat) : List Nat :=
  l.drop (l.length - 8)

/-- Buffer.from(str, hex): consume characters two at a time, each pair
one byte; hex digit values of decimal characters are the digits
themselves. -/
def hexPairs : List Nat → List Nat
  | a :: b :: rest => (16 * a + b) :: hexPairs rest
  | _ => []

/-- The seed bytes deriveEscrowAddress feeds to findProgramAddressSync
together with the namespace tag (src/client/README.md lines 747 to 753):
Buffer.from(seed.toString().padStart(8, 0).slice(-8), hex), that is the
zero-padded decimal rendering of the seed reparsed as hex byte pairs. -/
def deriveEscrowAddressSeedBytes (seed : Nat) : List Nat :=
  hexPairs (last8 (padTo8 (decDigits seed)))

lemma step_initOp (sig sd amt t : Nat) (s : LedgerState) :
    step (.initOp sig sd amt t) s = initEscrow sig sd amt t s := rfl

lemma step_confirmOp (sig : Nat) (s : LedgerState) :
    step (.confirmOp sig) s = confirmPayment sig s := rfl

lemma step_exchangeOp (sig : Nat) (s : LedgerState) :
    step (.exchangeOp sig) s = exchange sig s := rfl

lemma step_cancelOp (sig : Nat) (s : LedgerState) :
    step (.cancelOp sig) s = cancel sig s := rfl

lemma applyOp_of_error {o : Op} {s : LedgerState} {err : EscrowError}
    (h : step o s = .error err) : applyOp o s = s := by
  unfold applyOp
  rw [h]

lemma applyOp_of_ok {o : Op} {s s2 : LedgerState}
    (h : step o s = .ok s2) : applyOp o s = s2 := by
  unfold applyOp
  rw [h]

lemma initEscrow_ok_shape {sig sd amt t : Nat} {s s2 : LedgerState}
    (h : initEscrow sig sd amt t s = .ok s2) :
    confirmedNow s2 = false ∧ totalSupply s2 = totalSupply s := by
  unfold initEscrow at h
  split at h
  · cases h
  · split at h
    · cases h
    · split at h
      · cases h
      · split at h
        · cases h
        · cases h
          refine ⟨rfl, ?_⟩
          unfold totalSupply
          simp only
          omega

lemma confirmPayment_ok_shape {sig : Nat} {s s2 : LedgerState}
    (h : confirmPayment sig s = .ok s2) :
    (∃ e : EscrowAccount, s.escrow = some e ∧ e.paymentConfirmed = false) ∧
      confirmedNow s2 = true ∧ totalSupply s2 = totalSupply s ∧
      s2.counterpartyId = s.counterpartyId := by
  unfold confirmPayment at h
  split at h
  · cases h
  · rename_i e he
    split at h
    · cases h
    · split at h
      · cases h
      · cases h
        rename_i hpc
        exact ⟨⟨e, he, by simpa using hpc⟩, rfl, rfl, rfl⟩

lemma exchange_ok_shape {sig : Nat} {s s2 : LedgerState}
    (h : exchange sig s = .ok s2) :
    (∃ e : EscrowAccount, s.escrow = some e ∧ e.paymentConfirmed = true ∧
      sig = e.initializer ∧ s.vaultBalance = e.initializerAmount) ∧
      s2.escrow = none ∧ totalSupply s2 = totalSupply s := by
  unfold exchange at h
  split at h
  · cases h
  · rename_i e he
    split at h
    · cases h
    · split at h
      · cases h
      · split at h
        · cases h
        · cases h
          rename_i hsig hpc hvault
          have hsig2 : sig = e.initializer := by
            by_contra hc
            exact hsig hc
          have hpc2 : e.paymentConfirmed = true := by
            cases hb : e.paymentConfirmed
            · exact absurd hb hpc
            · rfl
          have hvault2 : s.vaultBalance = e.initializerAmount := by
            by_contra hc
            exact hvault hc
          refine ⟨⟨e, he, hpc2, hsig2, hvault2⟩, rfl, ?_⟩
          have hfee : e.initializerAmount * feePercent / 100 ≤ e.initializerAmount := by
            calc e.initializerAmount * feePercent / 100
                ≤ e.initializerAmount * 100 / 100 :=
                  Nat.div_le_div_right
                    (Nat.mul_le_mul_left e.initializerAmount (by decide))
              _ = e.initializerAmount := Nat.mul_div_cancel _ (by omega)
          simp [totalSupply, split, feePercent] at hfee ⊢
          omega

lemma cancel_ok_shape {sig : Nat} {s s2 : LedgerState}
    (h : cancel sig s = .ok s2) :
    (∃ e : EscrowAccount, s.escrow = some e ∧ e.paymentConfirmed = false ∧
      sig = e.initializer) ∧
      s2.escrow = none ∧ totalSupply s2 = totalSupply s := by
  unfold cancel at h
  split at h
  · cases h
  · rename_i e he
    split at h
    · cases h
    · split at h
      · cases h
      · cases h
        rename_i hsig hpc
        have hsig2 : sig = e.initializer := by
          by_contra hc
          exact hsig hc
        refine ⟨⟨e, he, by simpa using hpc, hsig2⟩, rfl, ?_⟩
        unfold totalSupply
        simp only
        omega

lemma stateAfter_nil (s0 : LedgerState) : stateAfter s0 [] = s0 := rfl

lemma okAt_eq {ops : List Op} {i : Nat} {o : Op}
    (s0 : LedgerState) (h : ops.get? i = some o) :
    okAt s0 ops i = exOk (step o (stateAfter s0 (ops.take i))) := by
  unfold okAt
  rw [h]

lemma stateAfter_take_succ_some {ops : List Op} {i : Nat} {o : Op}
    (s0 : LedgerState) (h : ops.get? i = some o) :
    stateAfter s0 (ops.take (i + 1)) = applyOp o (stateAfter s0 (ops.take i)) := by
  rw [List.get?_eq_getElem?] at h
  rw [List.take_succ, h]
  unfold stateAfter
  rw [List.foldl_append]
  rfl

lemma stateAfter_take_succ_none {ops : List Op} {i : Nat}
    (s0 : LedgerState) (h : ops.get? i = none) :
    stateAfter s0 (ops.take (i + 1)) = stateAfter s0 (ops.take i) := by
  rw [List.get?_eq_getElem?] at h
  rw [List.take_succ, h]
  unfold stateAfter
  rw [List.foldl_append]
  rfl

/-- Main trace invariant: when the ledger holds a confirmed escrow after
running the first i operations, some earlier ConfirmPayment succeeded,
and no Initialize succeeded between that confirmation and position i, so
the confirmation applies to the escrow currently active. -/
lemma confirmed_has_confirm_source (s0 : LedgerState) (ops : List Op)
    (h0 : s0.escrow = none) :
    ∀ i, confirmedNow (stateAfter s0 (ops.take i)) = true →
      ∃ j, j < i ∧ isConfirmAt ops j = true ∧ okAt s0 ops j = true ∧
        ∀ k, j < k → k < i → isInitAt ops k = true → okAt s0 ops k = false := by
  intro i
  induction i with
  | zero =>
    intro h
    rw [List.take_zero, stateAfter_nil] at h
    unfold confirmedNow at h
    rw [h0] at h
    cases h
  | succ m ih =>
    intro h
    cases hg : ops.get? m with
    | none =>
      rw [stateAfter_take_succ_none s0 hg] at h
      obtain ⟨j, hj, hc, hok, hno⟩ := ih h
      refine ⟨j, Nat.lt_succ_of_lt hj, hc, hok, ?_⟩
      intro k hjk hkm hinit
      rcases Nat.lt_succ_iff_lt_or_eq.mp hkm with h1 | h1
      · exact hno k hjk h1 hinit
      · subst h1
        unfold isInitAt at hinit
        rw [hg] at hinit
        cases hinit
    | some o =>
      rw [stateAfter_take_succ_some s0 hg] at h
      cases hstep : step o (stateAfter s0 (ops.take m)) with
      | error err =>
        rw [applyOp_of_error hstep] at h
        obtain ⟨j, hj, hc, hok, hno⟩ := ih h
        refine ⟨j, Nat.lt_succ_of_lt hj, hc, hok, ?_⟩
        intro k hjk hkm hinit
        rcases Nat.lt_succ_iff_lt_or_eq.mp hkm with h1 | h1
        · exact hno k hjk h1 hinit
        · subst h1
          rw [okAt_eq s0 hg, hstep]
          rfl
      | ok s2 =>
        rw [applyOp_of_ok hstep] at h
        cases o with
        | initOp sig sd amt t =>
          have := (initEscrow_ok_shape (s := stateAfter s0 (ops.take m)) hstep).1
          rw [h] at this
          cases this
        | confirmOp sig =>
          refine ⟨m, Nat.lt_succ_self m, ?_, ?_, ?_⟩
          · unfold isConfirmAt
            rw [hg]
          · rw [okAt_eq s0 hg, hstep]
            rfl
          · intro k hjk hkm _
            omega
        | exchangeOp sig =>
          have := (exchange_ok_shape (s := stateAfter s0 (ops.take m)) hstep).2.1
          unfold confirmedNow at h
          rw [this] at h
          cases h
        | cancelOp sig =>
          have := (cancel_ok_shape (s := stateAfter s0 (ops.take m)) hstep).2.1
          unfold confirmedNow at h
          rw [this] at h
          cases h

lemma mul6_div100_le (gross : Nat) : gross * 6 / 100 ≤ gross := by
  calc gross * 6 / 100
      ≤ gross * 100 / 100 :=
        Nat.div_le_div_right (Nat.mul_le_mul_left gross (by decide))
    _ = gross := Nat.mul_div_cancel _ (by decide)

lemma leBytes_length (n : Nat) : ∀ v : Nat, (leBytes n v).length = n := by
  induction n with
  | zero => intro v; rfl
  | succ m ih => intro v; simp [leBytes, ih]

lemma hexPairs_length : ∀ l : List Nat, (hexPairs l).length = l.length / 2
  | [] => by simp [hexPairs]
  | [_] => by simp [hexPairs]
  | _ :: _ :: rest => by
    simp [hexPairs, hexPairs_length rest]
    omega

lemma padTo8_length_ge (l : List Nat) : 8 ≤ (padTo8 l).length := by
  simp [padTo8]
  omega

lemma deriveSeedBytes_length (seed : Nat) :
    (deriveEscrowAddressSeedBytes seed).length = 4 := by
  unfold deriveEscrowAddressSeedBytes last8
  rw [hexPairs_length]
  have h := padTo8_length_ge (decDigits seed)
  simp [List.length_drop]
  omega

/-- Concrete confirmed escrow world for the fee-exact release scenario of
the spec: 100000 units deposited and confirmed, all other balances 0. -/
def feeScenarioState : LedgerState :=
  { initializerId := 1
    counterpartyId := 2
    mintA := 10
    mintB := 10
    escrow := some {
      seed := 42
      bump := 0
      initializer := 1
      mintA := 10
      mintB := 10
      initializerAmount := 100000
      takerAmount := 0
      paymentConfirmed := true }
    vaultBalance := 100000
    initializerBalance := 0
    takerBalance := 0
    platformBalance := 0 }

/-- Claim C2: the fee split is exact integer arithmetic: for every gross
amount, fee is 6 percent truncated toward zero, net is the remainder,
fee plus net equals gross with no rounding loss, and for a deposit of
100000 the platform receives 6000 and the counterparty 94000. -/
theorem fee_split_exact :
    (∀ gross : Nat,
      (split gross feePercent).1 + (split gross feePercent).2 = gross)
    ∧ (∀ gross : Nat,
      (split gross feePercent).1 = gross * 6 / 100
      ∧ (split gross feePercent).2 = gross - gross * 6 / 100)
    ∧ split 100000 feePercent = (6000, 94000)
    ∧ exOk (exchange 1 feeScenarioState) = true
    ∧ (applyOp (.exchangeOp 1) feeScenarioState).platformBalance = 6000
    ∧ (applyOp (.exchangeOp 1) feeScenarioState).takerBalance = 94000 := by
  refine ⟨?_, fun gross => ⟨rfl, rfl⟩, by decide, by decide, by decide, by decide⟩
  intro gross
  have hfee := mul6_div100_le gross
  simp [split, feePercent]
  omega

/-- Claim C5 (divergent address derivation): escrowCreate feeds the
8-byte little-endian encoding of the seed to the program address
derivation, while deriveEscrowAddress feeds the 4 bytes obtained by
reparsing the zero-padded decimal rendering of the seed as hex, so the
two never agree on the derivation input and deriveEscrowAddress cannot
re-derive the address escrowCreate used. -/
theorem derive_address_mismatch :
    escrowCreateSeedBytes 12345 = [57, 48, 0, 0, 0, 0, 0, 0]
    ∧ deriveEscrowAddressSeedBytes 12345 = [0, 1, 35, 69]
    ∧ ∀ seed : Nat,
        deriveEscrowAddressSeedBytes seed ≠ escrowCreateSeedBytes seed := by
  refine ⟨by decide, by decide, ?_⟩
  intro seed h
  have h1 := congrArg List.length h
  rw [deriveSeedBytes_length] at h1
  unfold escrowCreateSeedBytes at h1
  rw [leBytes_length] at h1
  cases h1

/-- Concrete escrow account for the getEscrowData counterexample: the
agreement whose counterparty is account 2, an identity the stored record
does not mention anywhere. -/
def c6Account : EscrowAccount :=
  { seed := 42
    bump := 254
    initializer := 1
    mintA := 10
    mintB := 11
    initializerAmount := 100000
    takerAmount := 0
    paymentConfirmed := false }

/-- Claim C6 counterexample: the object getEscrowData returns for a
concrete escrow account has exactly the eight fields of the stored
record, none of them named counterparty or taker, and no field value
carries the counterparty identity 2 of the agreement. -/
theorem escrow_data_missing_counterparty :
    getEscrowData c6Account =
      [("seed", .str "42"), ("bump", .num 254), ("initializer", .str "1"),
       ("mintA", .str "10"), ("mintB", .str "11"),
       ("initializerAmount", .str "100000"), ("takerAmount", .str "0"),
       ("paymentConfirmed", .bool false)]
    ∧ ((getEscrowData c6Account).map Prod.fst).contains "counterparty" = false
    ∧ ((getEscrowData c6Account).map Prod.fst).contains "taker" = false
    ∧ (getEscrowData c6Account).all
        (fun kv => !(kv.2 == JsValue.str "2") && !(kv.2 == JsValue.num 2)) = true := by
  decide

/-- Claim C6 amended: getEscrowData is a pure, non-mutating projection of
the fetched escrow account returning seed, bump, initializer, the two
mints, the two amounts and payment_confirmed, and it has no counterparty
field at all. -/
theorem escrow_data_fields :
    ∀ acc : EscrowAccount,
      (getEscrowData acc).map Prod.fst =
        ["seed", "bump", "initializer", "mintA", "mintB",
         "initializerAmount", "takerAmount", "paymentConfirmed"]
      ∧ jsGet (getEscrowData acc) "seed" = some (.str (toString acc.seed))
      ∧ jsGet (getEscrowData acc) "initializer"
          = some (.str (toString acc.initializer))
      ∧ jsGet (getEscrowData acc) "mintA" = some (.str (toString acc.mintA))
      ∧ jsGet (getEscrowData acc) "mintB" = some (.str (toString acc.mintB))
      ∧ jsGet (getEscrowData acc) "initializerAmount"
          = some (.str (toString acc.initializerAmount))
      ∧ jsGet (getEscrowData acc) "takerAmount"
          = some (.str (toString acc.takerAmount))
      ∧ jsGet (getEscrowData acc) "paymentConfirmed"
          = some (.bool acc.paymentConfirmed)
      ∧ jsGet (getEscrowData acc) "counterparty" = none := by
  intro acc
  exact ⟨rfl, rfl, rfl, rfl, rfl, rfl, rfl, rfl, rfl⟩

/-- Claim C10: getTokenBalance maps every fetch failure, including a
missing associated token account, to 0 instead of propagating the error,
in both the EscrowAPI client and the wallet client, so a result of 0
cannot distinguish an empty account from a missing one. -/
theorem token_balance_error_returns_zero :
    (∀ e : String, getTokenBalance (.error e) = 0)
    ∧ getTokenBalance (.ok 0) = 0
    ∧ (∃ missing existing : Except String Nat,
        missing ≠ existing ∧ exOk missing = false ∧ exOk existing = true
        ∧ getTokenBalance missing = 0 ∧ getTokenBalance existing = 0)
    ∧ (∀ (e : String) (connected supported : Bool),
        walletGetTokenBalance connected supported (.error e) = 0) := by
  refine ⟨fun e => rfl, rfl,
    ⟨.error "Account does not exist", .ok 0, ?_, rfl, rfl, rfl, rfl⟩, ?_⟩
  · intro h
    cases h
  · intro e connected supported
    cases connected <;> cases supported <;> rfl

/-- Claim C1: Exchange (Release) never succeeds in any operation sequence
unless a successful ConfirmPayment preceded it with no successful
Initialize in between (so the confirmation concerns the currently active
escrow), and when payment_confirmed is false the client escrowRelease
rejects with PaymentNotConfirmed and the exchange instruction moves no
funds. -/
theorem release_requires_prior_confirm :
    (∀ (s0 : LedgerState) (ops : List Op) (i : Nat),
      s0.escrow = none →
      isExchangeAt ops i = true →
      okAt s0 ops i = true →
      ∃ j, j < i ∧ isConfirmAt ops j = true ∧ okAt s0 ops j = true ∧
        ∀ k, j < k → k < i → isInitAt ops k = true → okAt s0 ops k = false)
    ∧ (∀ (sig : Nat) (s : LedgerState) (e : EscrowAccount),
      s.escrow = some e → e.paymentConfirmed = false →
      escrowRelease sig s = .error .PaymentNotConfirmed
      ∧ applyOp (.exchangeOp sig) s = s) := by
  constructor
  · intro s0 ops i h0 hex hok
    unfold isExchangeAt at hex
    cases hg : ops.get? i with
    | none =>
      rw [hg] at hex
      cases hex
    | some o =>
      rw [hg] at hex
      cases o with
      | initOp sig sd amt t => cases hex
      | confirmOp sig => cases hex
      | cancelOp sig => cases hex
      | exchangeOp sig =>
        rw [okAt_eq s0 hg] at hok
        cases hstep : step (.exchangeOp sig) (stateAfter s0 (ops.take i)) with
        | error err =>
          rw [hstep] at hok
          cases hok
        | ok s2 =>
          obtain ⟨⟨e, he, hpc, _, _⟩, _, _⟩ := exchange_ok_shape hstep
          have hcn : confirmedNow (stateAfter s0 (ops.take i)) = true := by
            unfold confirmedNow
            rw [he]
            exact hpc
          exact confirmed_has_confirm_source s0 ops h0 i hcn
  · intro sig s e he hpc
    constructor
    · unfold escrowRelease
      rw [he]
      simp [hpc]
    · by_cases hsig : sig = e.initializer
      · have hc : exchange sig s = .error .PaymentNotConfirmed := by
          unfold exchange
          rw [he]
          simp [hsig, hpc]
        exact applyOp_of_error (o := .exchangeOp sig) hc
      · have hc : exchange sig s = .error .Unauthorized := by
          unfold exchange
          rw [he]
          simp [hsig]
        exact applyOp_of_error (o := .exchangeOp sig) hc

/-- Concrete world, trace and intermediate state for the C1 witness. -/
def w1Start : LedgerState :=
  { initializerId := 1
    counterpartyId := 2
    mintA := 10
    mintB := 10
    escrow := none
    vaultBalance := 0
    initializerBalance := 100000
    takerBalance := 0
    platformBalance := 0 }

/-- The three-step trace create, confirm, release of the C1 witness. -/
def w1Ops : List Op := [.initOp 1 42 100000 0, .confirmOp 2, .exchangeOp 1]

/-- The escrow account created by the first operation of w1Ops. -/
def w1Account : EscrowAccount :=
  { seed := 42
    bump := 0
    initializer := 1
    mintA := 10
    mintB := 10
    initializerAmount := 100000
    takerAmount := 0
    paymentConfirmed := false }

/-- The world of the C1 witness right after creation, unconfirmed. -/
def w1Unconfirmed : LedgerState := applyOp (.initOp 1 42 100000 0) w1Start

theorem release_requires_prior_confirm_witness :
    (∃ j, j < 2 ∧ isConfirmAt w1Ops j = true ∧ okAt w1Start w1Ops j = true ∧
      ∀ k, j < k → k < 2 → isInitAt w1Ops k = true → okAt w1Start w1Ops k = false)
    ∧ escrowRelease 1 w1Unconfirmed = .error .PaymentNotConfirmed
    ∧ applyOp (.exchangeOp 1) w1Unconfirmed = w1Unconfirmed :=
  ⟨release_requires_prior_confirm.1 w1Start w1Ops 2 rfl (by decide) (by decide),
   (release_requires_prior_confirm.2 1 w1Unconfirmed w1Account (by decide) rfl).1,
   (release_requires_prior_confirm.2 1 w1Unconfirmed w1Account (by decide) rfl).2⟩

/-- Claim C3: once payment_confirmed is true, Cancel by the initializer
fails with PaymentAlreadyConfirmed and moves no funds, and Cancel
succeeds only while payment_confirmed is false. -/
theorem cancel_blocked_after_confirm :
    (∀ (s : LedgerState) (e : EscrowAccount) (sig : Nat),
      s.escrow = some e → e.paymentConfirmed = true → sig = e.initializer →
      cancel sig s = .error .PaymentAlreadyConfirmed
      ∧ applyOp (.cancelOp sig) s = s)
    ∧ (∀ (sig : Nat) (s s2 : LedgerState),
      cancel sig s = .ok s2 →
      ∃ e, s.escrow = some e ∧ e.paymentConfirmed = false) := by
  constructor
  · intro s e sig he hpc hsig
    have hc : cancel sig s = .error .PaymentAlreadyConfirmed := by
      unfold cancel
      rw [he]
      simp [hsig, hpc]
    exact ⟨hc, applyOp_of_error (o := .cancelOp sig) hc⟩
  · intro sig s s2 h
    obtain ⟨⟨e, he, hpc, _⟩, _, _⟩ := cancel_ok_shape h
    exact ⟨e, he, hpc⟩

/-- The confirmed escrow account of the C3 witness. -/
def w3Account : EscrowAccount :=
  { seed := 7
    bump := 0
    initializer := 1
    mintA := 10
    mintB := 10
    initializerAmount := 50000
    takerAmount := 0
    paymentConfirmed := true }

/-- The confirmed escrow world of the C3 witness. -/
def w3State : LedgerState :=
  { initializerId := 1
    counterpartyId := 2
    mintA := 10
    mintB := 10
    escrow := some w3Account
    vaultBalance := 50000
    initializerBalance := 0
    takerBalance := 0
    platformBalance := 0 }

theorem cancel_blocked_after_confirm_witness :
    cancel 1 w3State = .error .PaymentAlreadyConfirmed
    ∧ applyOp (.cancelOp 1) w3State = w3State :=
  cancel_blocked_after_confirm.1 w3State w3Account 1 rfl rfl rfl

/-- Claim C4: on an unconfirmed escrow the first ConfirmPayment by the
counterparty succeeds and sets payment_confirmed, the second fails with
AlreadyConfirmed rather than silently succeeding, and payment_confirmed
is still true after both attempts; moreover every successful
ConfirmPayment starts from an unconfirmed escrow (so the flag turns true
at most once) and no operation ever turns it back to false while the
escrow exists. -/
theorem confirm_twice :
    (∀ (s : LedgerState) (e : EscrowAccount),
      s.escrow = some e → e.paymentConfirmed = false →
      ∃ s2, confirmPayment s.counterpartyId s = .ok s2
        ∧ confirmedNow s2 = true
        ∧ confirmPayment s2.counterpartyId s2 = .error .AlreadyConfirmed
        ∧ confirmedNow (applyOp (.confirmOp s2.counterpartyId) s2) = true)
    ∧ (∀ (sig : Nat) (s s2 : LedgerState),
      confirmPayment sig s = .ok s2 →
      (∃ e, s.escrow = some e ∧ e.paymentConfirmed = false)
      ∧ confirmedNow s2 = true)
    ∧ (∀ (o : Op) (s : LedgerState),
      confirmedNow s = true →
      (applyOp o s).escrow = none ∨ confirmedNow (applyOp o s) = true) := by
  refine ⟨?_, ?_, ?_⟩
  · intro s e he hpc
    refine ⟨{ s with escrow := some { e with paymentConfirmed := true } },
      ?_, rfl, ?_, ?_⟩
    · unfold confirmPayment
      rw [he]
      simp [hpc]
    · unfold confirmPayment
      simp
    · have herr : confirmPayment s.counterpartyId
          { s with escrow := some { e with paymentConfirmed := true } }
          = .error .AlreadyConfirmed := by
        unfold confirmPayment
        simp
      rw [applyOp_of_error ((step_confirmOp s.counterpartyId _).trans herr)]
      rfl
  · intro sig s s2 h
    obtain ⟨hex, hcn, _, _⟩ := confirmPayment_ok_shape h
    exact ⟨hex, hcn⟩
  · intro o s h
    cases hs : s.escrow with
    | none =>
      unfold confirmedNow at h
      rw [hs] at h
      cases h
    | some e =>
      have hpc : e.paymentConfirmed = true := by
        unfold confirmedNow at h
        rw [hs] at h
        exact h
      cases o with
      | initOp sig sd amt t =>
        cases hstep : step (.initOp sig sd amt t) s with
        | error err =>
          right
          rw [applyOp_of_error hstep]
          unfold confirmedNow
          rw [hs]
          exact hpc
        | ok s2 =>
          exfalso
          simp only [step] at hstep
          unfold initEscrow at hstep
          rw [hs] at hstep
          split at hstep
          · cases hstep
          · cases hstep
      | confirmOp sig =>
        cases hstep : step (.confirmOp sig) s with
        | error err =>
          right
          rw [applyOp_of_error hstep]
          unfold confirmedNow
          rw [hs]
          exact hpc
        | ok s2 =>
          exfalso
          obtain ⟨⟨e2, he2, hpc2⟩, _, _, _⟩ := confirmPayment_ok_shape hstep
          rw [hs] at he2
          injection he2 with hee
          rw [← hee] at hpc2
          rw [hpc] at hpc2
          cases hpc2
      | exchangeOp sig =>
        cases hstep : step (.exchangeOp sig) s with
        | error err =>
          right
          rw [applyOp_of_error hstep]
          unfold confirmedNow
          rw [hs]
          exact hpc
        | ok s2 =>
          left
          rw [applyOp_of_ok hstep]
          exact (exchange_ok_shape hstep).2.1
      | cancelOp sig =>
        cases hstep : step (.cancelOp sig) s with
        | error err =>
          right
          rw [applyOp_of_error hstep]
          unfold confirmedNow
          rw [hs]
          exact hpc
        | ok s2 =>
          left
          rw [applyOp_of_ok hstep]
          exact (cancel_ok_shape hstep).2.1

/-- The unconfirmed escrow account of the C4 witness. -/
def w4Account : EscrowAccount :=
  { seed := 9
    bump := 0
    initializer := 1
    mintA := 10
    mintB := 10
    initializerAmount := 100000
    takerAmount := 0
    paymentConfirmed := false }

/-- The unconfirmed escrow world of the C4 witness. -/
def w4State : LedgerState :=
  { initializerId := 1
    counterpartyId := 2
    mintA := 10
    mintB := 10
    escrow := some w4Account
    vaultBalance := 100000
    initializerBalance := 0
    takerBalance := 0
    platformBalance := 0 }

theorem confirm_twice_witness :
    ∃ s2, confirmPayment w4State.counterpartyId w4State = .ok s2
      ∧ confirmedNow s2 = true
      ∧ confirmPayment s2.counterpartyId s2 = .error .AlreadyConfirmed
      ∧ confirmedNow (applyOp (.confirmOp s2.counterpartyId) s2) = true :=
  confirm_twice.1 w4State w4Account rfl rfl

/-- Claim C7: the amount-parsing path rejects every NaN or non-positive
input with Invalid amount, and a zero-amount Initialize fails with
InvalidAmount and leaves the ledger, hence the escrow and vault,
untouched. -/
theorem zero_deposit_rejected :
    (∀ (input : Option ℚ) (decimals : Nat),
      (∀ a : ℚ, input = some a → a ≤ 0) →
      parseTokenAmount input decimals = .error "Invalid amount")
    ∧ (∀ (sig sd t : Nat) (s : LedgerState),
      initEscrow sig sd 0 t s = .error .InvalidAmount
      ∧ applyOp (.initOp sig sd 0 t) s = s
      ∧ (applyOp (.initOp sig sd 0 t) s).escrow = s.escrow) := by
  constructor
  · intro input decimals hinput
    cases input with
    | none => rfl
    | some a =>
      have ha := hinput a rfl
      unfold parseTokenAmount
      simp [ha]
  · intro sig sd t s
    exact ⟨rfl, rfl, rfl⟩

/-- An empty ledger world for the C7 witness. -/
def w7State : LedgerState :=
  { initializerId := 1
    counterpartyId := 2
    mintA := 10
    mintB := 10
    escrow := none
    vaultBalance := 0
    initializerBalance := 100000
    takerBalance := 0
    platformBalance := 0 }

theorem zero_deposit_rejected_witness :
    parseTokenAmount none 6 = .error "Invalid amount"
    ∧ (initEscrow 1 42 0 0 w7State = .error .InvalidAmount
      ∧ applyOp (.initOp 1 42 0 0) w7State = w7State
      ∧ (applyOp (.initOp 1 42 0 0) w7State).escrow = w7State.escrow) :=
  ⟨zero_deposit_rejected.1 none 6 (fun _ ha => Option.noConfusion ha),
   zero_deposit_rejected.2 1 42 0 w7State⟩

/-- Claim C8: canReleaseEscrow decides Release legality from the
snapshot read: canRelease is true exactly when the fetched record has
payment_confirmed true, and when the record cannot be loaded it returns
canRelease false with a null escrowData instead of throwing. -/
theorem can_release_decides :
    (∀ fetched : Option EscrowAccount,
      ((canReleaseEscrow fetched).canRelease = true ↔
        ∃ acc, fetched = some acc ∧ acc.paymentConfirmed = true))
    ∧ (canReleaseEscrow none).canRelease = false
    ∧ (canReleaseEscrow none).escrowData = none
    ∧ (∀ acc : EscrowAccount,
        (canReleaseEscrow (some acc)).escrowData = some (getEscrowData acc)) := by
  refine ⟨?_, rfl, rfl, fun acc => rfl⟩
  intro fetched
  cases fetched with
  | none =>
    constructor
    · intro h
      cases h
    · rintro ⟨acc, hacc, _⟩
      cases hacc
  | some acc =>
    have hred : (canReleaseEscrow (some acc)).canRelease = acc.paymentConfirmed := rfl
    rw [hred]
    constructor
    · intro h
      exact ⟨acc, rfl, h⟩
    · rintro ⟨acc2, hacc, hpc⟩
      injection hacc with hee
      rw [hee]
      exact hpc

/-- A confirmed escrow account for the C8 witness. -/
def w8Account : EscrowAccount :=
  { seed := 1
    bump := 2
    initializer := 3
    mintA := 4
    mintB := 5
    initializerAmount := 6
    takerAmount := 7
    paymentConfirmed := true }

theorem can_release_decides_witness :
    (canReleaseEscrow (some w8Account)).canRelease = true :=
  (can_release_decides.1 (some w8Account)).mpr ⟨w8Account, rfl, rfl⟩

/-- Claim C9: Release and Cancel against the same escrow, in either
serialization order the ledger picks, let exactly one of the two
succeed; the loser observes EscrowNotFound or the matching
state-precondition error; and every operation, applied or rejected,
conserves the total token supply. -/
theorem release_cancel_race :
    (∀ (s : LedgerState) (e : EscrowAccount) (sig : Nat),
      s.escrow = some e → sig = e.initializer →
      s.vaultBalance = e.initializerAmount →
      ((exOk (step (.exchangeOp sig) s)).toNat
          + (exOk (step (.cancelOp sig) (applyOp (.exchangeOp sig) s))).toNat = 1
        ∧ (exOk (step (.cancelOp sig) s)).toNat
          + (exOk (step (.exchangeOp sig) (applyOp (.cancelOp sig) s))).toNat = 1)
      ∧ (e.paymentConfirmed = true →
          step (.cancelOp sig) (applyOp (.exchangeOp sig) s)
            = .error .EscrowNotFound
          ∧ step (.cancelOp sig) s = .error .PaymentAlreadyConfirmed)
      ∧ (e.paymentConfirmed = false →
          step (.exchangeOp sig) s = .error .PaymentNotConfirmed
          ∧ step (.exchangeOp sig) (applyOp (.cancelOp sig) s)
            = .error .EscrowNotFound))
    ∧ (∀ (o : Op) (s : LedgerState),
        totalSupply (applyOp o s) = totalSupply s) := by
  constructor
  · intro s e sig he hsig hvault
    cases hb : e.paymentConfirmed with
    | true =>
      have hEx : exchange sig s = .ok { s with
          escrow := none
          vaultBalance := 0
          platformBalance :=
            s.platformBalance + (split e.initializerAmount feePercent).1
          takerBalance :=
            s.takerBalance + (split e.initializerAmount feePercent).2 } := by
        unfold exchange
        rw [he]
        simp [hsig, hb, hvault]
      have hAfter : applyOp (.exchangeOp sig) s = { s with
          escrow := none
          vaultBalance := 0
          platformBalance :=
            s.platformBalance + (split e.initializerAmount feePercent).1
          takerBalance :=
            s.takerBalance + (split e.initializerAmount feePercent).2 } :=
        applyOp_of_ok ((step_exchangeOp sig s).trans hEx)
      have hCanAfter : step (.cancelOp sig) (applyOp (.exchangeOp sig) s)
          = .error .EscrowNotFound := by
        rw [hAfter, step_cancelOp]
        rfl
      have hCan : cancel sig s = .error .PaymentAlreadyConfirmed := by
        unfold cancel
        rw [he]
        simp [hsig, hb]
      refine ⟨⟨?_, ?_⟩, fun _ => ⟨hCanAfter, (step_cancelOp sig s).trans hCan⟩,
        fun hf => Bool.noConfusion hf⟩
      · rw [step_exchangeOp, hEx, hCanAfter]
        rfl
      · have hCanOk : exOk (step (.cancelOp sig) s) = false := by
          rw [step_cancelOp, hCan]
          rfl
        have hSame : applyOp (.cancelOp sig) s = s :=
          applyOp_of_error ((step_cancelOp sig s).trans hCan)
        rw [hCanOk, hSame, step_exchangeOp, hEx]
        rfl
    | false =>
      have hCan : cancel sig s = .ok { s with
          escrow := none
          vaultBalance := 0
          initializerBalance := s.initializerBalance + s.vaultBalance } := by
        unfold cancel
        rw [he]
        simp [hsig, hb]
      have hEx : exchange sig s = .error .PaymentNotConfirmed := by
        unfold exchange
        rw [he]
        simp [hsig, hb]
      have hAfter : applyOp (.cancelOp sig) s = { s with
          escrow := none
          vaultBalance := 0
          initializerBalance := s.initializerBalance + s.vaultBalance } :=
        applyOp_of_ok ((step_cancelOp sig s).trans hCan)
      have hExAfter : step (.exchangeOp sig) (applyOp (.cancelOp sig) s)
          = .error .EscrowNotFound := by
        rw [hAfter, step_exchangeOp]
        rfl
      have hSame : applyOp (.exchangeOp sig) s = s :=
        applyOp_of_error ((step_exchangeOp sig s).trans hEx)
      refine ⟨⟨?_, ?_⟩,
        fun ht => Bool.noConfusion ht,
        fun _ => ⟨(step_exchangeOp sig s).trans hEx, hExAfter⟩⟩
      · rw [hSame, step_exchangeOp, hEx, step_cancelOp, hCan]
        rfl
      · rw [step_cancelOp, hCan, hExAfter]
        rfl
  · intro o s
    cases hstep : step o s with
    | error err => rw [applyOp_of_error hstep]
    | ok s2 =>
      rw [applyOp_of_ok hstep]
      cases o with
      | initOp sig sd amt t => exact (initEscrow_ok_shape hstep).2
      | confirmOp sig => exact (confirmPayment_ok_shape hstep).2.2.1
      | exchangeOp sig => exact (exchange_ok_shape hstep).2.2
      | cancelOp sig => exact (cancel_ok_shape hstep).2.2

/-- The confirmed escrow account of the C9 witness. -/
def w9Account : EscrowAccount :=
  { seed := 3
    bump := 0
    initializer := 1
    mintA := 10
    mintB := 10
    initializerAmount := 100000
    takerAmount := 0
    paymentConfirmed := true }

/-- The confirmed escrow world of the C9 witness. -/
def w9State : LedgerState :=
  { initializerId := 1
    counterpartyId := 2
    mintA := 10
    mintB := 10
    escrow := some w9Account
    vaultBalance := 100000
    initializerBalance := 0
    takerBalance := 0
    platformBalance := 0 }

theorem release_cancel_race_witness :
    (exOk (step (.exchangeOp 1) w9State)).toNat
      + (exOk (step (.cancelOp 1) (applyOp (.exchangeOp 1) w9State))).toNat = 1 :=
  (release_cancel_race.1 w9State w9Account 1 rfl rfl rfl).1.1
